import Mathlib

-- Verification development for the ProcessingThreads repository.
-- The definitions below are a shallow embedding of the canonical sources:
-- queue.h (the global-counter, dynamic-capacity Queue<T> variant) and
-- threads.cpp (ArithmeticFunction, ProcessingThread).  Blocking operations
-- (push on a full queue, pop on an empty queue) are modelled as partial
-- operations returning Option: `none` means the call cannot complete without
-- a concurrent counterpart.  Machine floating point is modelled by exact
-- rationals; C++ `int` by unbounded Int (signed overflow is undefined
-- behaviour, so every defined execution stays in range).

namespace ProcessingThreads

/-- Model of `static_cast<size_t>` applied to a C++ `int` on a 64-bit
platform: the value reduced modulo 2^64, as used in the push wait predicate
`elements.size() < static_cast<size_t>(maxCapacity)` of queue.h. -/
def toSizeT (c : Int) : Nat := (c % (2 ^ 64)).toNat

/-- State of a `Queue<T>` from queue.h: the FIFO buffer (head first), the
`maxCapacity` field (a C++ int, stored exactly as passed to the constructor)
and the `uniqueId` field. -/
structure BQueue (T : Type) where
  elements : List T
  maxCapacity : Int
  uniqueId : Int

/-- Constructor `Queue(int capacity = 50) : maxCapacity(capacity),
uniqueId(globalRunningID++)`: returns the new queue together with the updated
value of the process-wide `globalRunningID` counter.  The id assignment is
independent of the element type `T` (the counter is shared by every
instantiation). -/
def mkQueue (T : Type) (capacity : Int) (ctr : Int) : BQueue T × Int :=
  ({ elements := [], maxCapacity := capacity, uniqueId := ctr }, ctr + 1)

/-- Method `push`: waits until `elements.size() < static_cast<size_t>(maxCapacity)`,
then appends at the tail.  `none` models a push that blocks (cannot complete). -/
def BQueue.push {T : Type} (q : BQueue T) (v : T) : Option (BQueue T) :=
  if q.elements.length < toSizeT q.maxCapacity then
    some { q with elements := q.elements ++ [v] }
  else
    none

/-- Method `pop`: waits until the buffer is non-empty, then removes and returns
the head element.  `none` models a pop that blocks. -/
def BQueue.pop {T : Type} (q : BQueue T) : Option (T × BQueue T) :=
  match q.elements with
  | [] => none
  | v :: rest => some (v, { q with elements := rest })

/-- Method `size`: returns `elements.size()`. -/
def BQueue.size {T : Type} (q : BQueue T) : Nat := q.elements.length

/-- Method `empty`: returns `elements.empty()`. -/
def BQueue.isEmptyQ {T : Type} (q : BQueue T) : Bool := q.elements.isEmpty

/-- Method `getId`: returns the `uniqueId` field. -/
def BQueue.getId {T : Type} (q : BQueue T) : Int := q.uniqueId

/-- Method `getMaxCapacity`: returns the `maxCapacity` field. -/
def BQueue.getMaxCapacity {T : Type} (q : BQueue T) : Int := q.maxCapacity

/-- A serialized queue operation: one completed-or-blocked call of `push` or
`pop` observed at the queue. -/
inductive QOp (T : Type) where
| push (v : T)
| pop

/-- One observation step: a blocked call (the Option operation returns `none`)
leaves the buffer unchanged, a completed call updates it. -/
def stepOp {T : Type} (q : BQueue T) : QOp T → BQueue T
  | .push v =>
    match q.push v with
    | some q1 => q1
    | none => q
  | .pop =>
    match q.pop with
    | some (_, q1) => q1
    | none => q

/-- Run a serialized sequence of push/pop calls against a queue. -/
def runOps {T : Type} (q : BQueue T) (ops : List (QOp T)) : BQueue T :=
  ops.foldl stepOp q

/-- Push a whole list of values in order; fails if any push blocks. -/
def pushAll {T : Type} (q : BQueue T) : List T → Option (BQueue T)
  | [] => some q
  | v :: rest =>
    match q.push v with
    | some q1 => pushAll q1 rest
    | none => none

/-- Pop `n` values in order; fails if any pop blocks. -/
def popAll {T : Type} (q : BQueue T) : Nat → Option (List T × BQueue T)
  | 0 => some ([], q)
  | n + 1 =>
    match q.pop with
    | some (v, q1) =>
      match popAll q1 n with
      | some (vs, q2) => some (v :: vs, q2)
      | none => none
    | none => none

/-- Sequential creation of one queue per requested capacity, threading the
process-wide `globalRunningID` counter through the constructor calls. -/
def mkQueueSeq (caps : List Int) (ctr : Int) : List (BQueue Unit) × Int :=
  match caps with
  | [] => ([], ctr)
  | c :: rest =>
    let qc := mkQueue Unit c ctr
    let qs := mkQueueSeq rest qc.2
    (qc.1 :: qs.1, qs.2)

-- Arithmetic model (threads.h / threads.cpp).

/-- Enum `Operation { ADD, SUBTRACT, MULTIPLY, DIVIDE }`. -/
inductive Operation where
| ADD
| SUBTRACT
| MULTIPLY
| DIVIDE
deriving DecidableEq

/-- The tagged union `DataValue = std::variant<int, float, std::complex<double>>`.
The machine real types `float` and `double` are modelled by exact rationals. -/
inductive DataValue where
| intV (n : Int)
| floatV (x : ℚ)
| complexV (re im : ℚ)
deriving DecidableEq

/-- Type tags of the three variant alternatives. -/
inductive Tag where
| integer
| float
| complexT
deriving DecidableEq

/-- Position of each alternative in the widening order Integer < Float < Complex. -/
def Tag.rank : Tag → Nat
  | .integer => 0
  | .float => 1
  | .complexT => 2

/-- The widest of two tags, i.e. the tag of `common_type_t` for the
corresponding pair of C++ types. -/
def widenTag (s t : Tag) : Tag :=
  if Tag.rank s ≤ Tag.rank t then t else s

/-- Tag of a value. -/
def DataValue.tag : DataValue → Tag
  | .intV _ => .integer
  | .floatV _ => .float
  | .complexV _ _ => .complexT

/-- Struct `ArithmeticFunction`: an operation plus optional pre-bound
left/right operands. -/
structure ArithmeticFunction where
  op : Operation
  left_operand : Option DataValue
  right_operand : Option DataValue
deriving DecidableEq

/-- Method `ArithmeticFunction::requiredArgs`: counts the unset operands,
left operand first, right operand second. -/
def ArithmeticFunction.requiredArgs (f : ArithmeticFunction) : Nat :=
  let needed : Nat := 0
  let needed := if f.left_operand.isSome then needed else needed + 1
  let needed := if f.right_operand.isSome then needed else needed + 1
  needed

/-- The constant `1e-10` used by the division-by-zero check of
`ProcessingThread::applyFunction`, as an exact rational. -/
def epsQ : ℚ := 1 / 10 ^ 10

/-- The C++ `std::abs` / `fabs` on the rational model of a real value. -/
def ratAbs (x : ℚ) : ℚ := if x < 0 then -x else x

/-- The `T = int` instantiation of the visit lambda in `applyFunction`:
`a / b` is C++ integer division, which truncates toward zero (`Int.tdiv`);
the divide guard is `abs(static_cast<double>(b)) < 1e-10`. -/
def evalInt (op : Operation) (a b : Int) : Except String DataValue :=
  match op with
  | .ADD => .ok (.intV (a + b))
  | .SUBTRACT => .ok (.intV (a - b))
  | .MULTIPLY => .ok (.intV (a * b))
  | .DIVIDE =>
    if ratAbs (b : ℚ) < epsQ then .error "Division by zero"
    else .ok (.intV (Int.tdiv a b))

/-- The `T = float` instantiation of the visit lambda in `applyFunction`. -/
def evalFloat (op : Operation) (a b : ℚ) : Except String DataValue :=
  match op with
  | .ADD => .ok (.floatV (a + b))
  | .SUBTRACT => .ok (.floatV (a - b))
  | .MULTIPLY => .ok (.floatV (a * b))
  | .DIVIDE =>
    if ratAbs b < epsQ then .error "Division by zero"
    else .ok (.floatV (a / b))

/-- The `T = complex<double>` instantiation of the visit lambda in
`applyFunction`.  A complex number is a pair (real, imaginary); the guard
`abs(b) < 1e-10` on the complex magnitude is expressed on the squared
magnitude (`re^2 + im^2 < (1e-10)^2`, equivalent for the nonnegative
magnitude) to stay within exact arithmetic, and `a / b` is the usual
complex division `a * conj(b) / |b|^2`. -/
def evalComplex (op : Operation) (a b : ℚ × ℚ) : Except String DataValue :=
  match op with
  | .ADD => .ok (.complexV (a.1 + b.1) (a.2 + b.2))
  | .SUBTRACT => .ok (.complexV (a.1 - b.1) (a.2 - b.2))
  | .MULTIPLY => .ok (.complexV (a.1 * b.1 - a.2 * b.2) (a.1 * b.2 + a.2 * b.1))
  | .DIVIDE =>
    if b.1 ^ 2 + b.2 ^ 2 < epsQ ^ 2 then .error "Division by zero"
    else
      .ok (.complexV ((a.1 * b.1 + a.2 * b.2) / (b.1 ^ 2 + b.2 ^ 2))
                     ((a.2 * b.1 - a.1 * b.2) / (b.1 ^ 2 + b.2 ^ 2)))

/-- The `std::visit` dispatch of `applyFunction` over the nine possible
pairs of alternatives: `common_type_t` promotes both operands to the widest
of the two types (Integer < Float < Complex) before evaluating. -/
def applyOp (op : Operation) (l r : DataValue) : Except String DataValue :=
  match l, r with
  | .intV a, .intV b => evalInt op a b
  | .intV a, .floatV b => evalFloat op (a : ℚ) b
  | .floatV a, .intV b => evalFloat op a (b : ℚ)
  | .floatV a, .floatV b => evalFloat op a b
  | .intV a, .complexV br bi => evalComplex op ((a : ℚ), 0) (br, bi)
  | .floatV a, .complexV br bi => evalComplex op (a, 0) (br, bi)
  | .complexV ar ai, .intV b => evalComplex op (ar, ai) ((b : ℚ), 0)
  | .complexV ar ai, .floatV b => evalComplex op (ar, ai) (b, 0)
  | .complexV ar ai, .complexV br bi => evalComplex op (ar, ai) (br, bi)

/-- Placeholder for an out-of-range `args[i]` access; `applyFunction` is only
called with `args.size() == requiredArgs()`, which makes every access
in range, so this default is never reached on those calls. -/
def dfltValue : DataValue := .intV 0

/-- Resolution of the left operand in `applyFunction`:
`func.left_operand.has_value() ? func.left_operand.value() : args[0]`. -/
def resolveLeft (func : ArithmeticFunction) (args : List DataValue) : DataValue :=
  match func.left_operand with
  | some v => v
  | none => args.getD 0 dfltValue

/-- Resolution of the right operand in `applyFunction`:
`func.right_operand.has_value() ? func.right_operand.value()
 : args[func.left_operand.has_value() ? 0 : 1]`. -/
def resolveRight (func : ArithmeticFunction) (args : List DataValue) : DataValue :=
  match func.right_operand with
  | some v => v
  | none => args.getD (if func.left_operand.isSome then 0 else 1) dfltValue

/-- `ProcessingThread::applyFunction`: resolve both operands, then evaluate
through the promoting visit.  A thrown `runtime_error` is an `error` result. -/
def applyFunction (func : ArithmeticFunction) (args : List DataValue) :
    Except String DataValue :=
  applyOp func.op (resolveLeft func args) (resolveRight func args)

/-- The division-by-zero guard of `applyFunction`, expressed on the resolved
right operand: `abs(b) < 1e-10` in the branch handling the operand's promoted
type (squared form for the complex magnitude). -/
def magLtEps : DataValue → Prop
  | .intV n => ratAbs (n : ℚ) < epsQ
  | .floatV x => ratAbs x < epsQ
  | .complexV re im => re ^ 2 + im ^ 2 < epsQ ^ 2

-- Processing model (ProcessingThread::processFunctionWithData and the
-- surrounding work loop of threads.cpp), serialized: one iteration runs
-- its queue operations to completion in order.

/-- The state touched by one `processFunctionWithData` call: the selected
function queue's buffer, the selected data queue's buffer, and the shared
`functionsProcessed` counter. -/
structure ProcState where
  funcQueue : List ArithmeticFunction
  dataQueue : List DataValue
  counter : Nat
deriving DecidableEq

/-- `ProcessingThread::processFunctionWithData`: return if the function queue
is empty; otherwise pop one function, abort (function consumed, data queue
untouched, counter untouched) when the data queue holds fewer values than
`requiredArgs()`; otherwise pop exactly `requiredArgs()` values, apply the
function, and increment the counter only when the application succeeded (a
thrown division error is caught by the enclosing try/catch and only logged). -/
def processFunctionWithData (s : ProcState) : ProcState :=
  match s.funcQueue with
  | [] => s
  | func :: rest =>
    let argsNeeded := func.requiredArgs
    if s.dataQueue.length < argsNeeded then
      { s with funcQueue := rest }
    else
      let args := s.dataQueue.take argsNeeded
      match applyFunction func args with
      | .ok _ =>
        { funcQueue := rest, dataQueue := s.dataQueue.drop argsNeeded,
          counter := s.counter + 1 }
      | .error _ =>
        { funcQueue := rest, dataQueue := s.dataQueue.drop argsNeeded,
          counter := s.counter }

/-- Truth value of an `Except` result: `true` exactly on success. -/
def exceptOk : Except String DataValue → Bool
  | .ok _ => true
  | .error _ => false

/-- Whether one `processFunctionWithData` call on the given pair of buffers
reaches a successful application: non-empty function queue, enough data
values, and an evaluation that does not throw. -/
def applySucceeds (fq : List ArithmeticFunction) (dq : List DataValue) : Bool :=
  match fq with
  | [] => false
  | f :: _ =>
    if dq.length < f.requiredArgs then false
    else exceptOk (applyFunction f (dq.take f.requiredArgs))

/-- Whole-system state seen by the processing workers: the buffers of all
data queues, the buffers of all function queues, and the shared counter. -/
structure SysState where
  dataQs : List (List DataValue)
  funcQs : List (List ArithmeticFunction)
  counter : Nat

/-- One serialized iteration of a worker, as dispatched by
`ProcessingThread::workLoop` or performed by a producer thread:
a data-to-data transfer, a function application, a producer push of a
data value or of a function, or a skipped iteration (function+function
pairing, fewer than two producers, or an empty producer set). -/
inductive PAction where
| transfer (src dst : Nat)
| applyF (fi di : Nat)
| produceData (i : Nat) (v : DataValue)
| produceFunc (i : Nat) (f : ArithmeticFunction)
| skipIter

/-- `ProcessingThread::processDataToData`: if the source data queue is empty
the iteration is a no-op, otherwise pop its head and push it at the tail of
the destination data queue. -/
def sysTransfer (s : SysState) (src dst : Nat) : SysState :=
  match s.dataQs.getD src [] with
  | [] => s
  | v :: rest =>
    let qs1 := s.dataQs.set src rest
    { s with dataQs := qs1.set dst (qs1.getD dst [] ++ [v]) }

/-- A `processFunctionWithData` call lifted to the whole system: it reads and
writes the selected function queue, the selected data queue and the counter. -/
def sysApply (s : SysState) (fi di : Nat) : SysState :=
  let p := processFunctionWithData
    { funcQueue := s.funcQs.getD fi [], dataQueue := s.dataQs.getD di [],
      counter := s.counter }
  { dataQs := s.dataQs.set di p.dataQueue,
    funcQs := s.funcQs.set fi p.funcQueue,
    counter := p.counter }

/-- A producer push of a generated data value (DataThread::workLoop). -/
def sysProduceData (s : SysState) (i : Nat) (v : DataValue) : SysState :=
  { s with dataQs := s.dataQs.set i (s.dataQs.getD i [] ++ [v]) }

/-- A producer push of a generated function (FunctionThread::workLoop). -/
def sysProduceFunc (s : SysState) (i : Nat) (f : ArithmeticFunction) : SysState :=
  { s with funcQs := s.funcQs.set i (s.funcQs.getD i [] ++ [f]) }

/-- One serialized system step. -/
def sysStep (s : SysState) (a : PAction) : SysState :=
  match a with
  | .transfer src dst => sysTransfer s src dst
  | .applyF fi di => sysApply s fi di
  | .produceData i v => sysProduceData s i v
  | .produceFunc i f => sysProduceFunc s i f
  | .skipIter => s

/-- Whether a system step is a successful function application. -/
def sysSuccess (s : SysState) (a : PAction) : Bool :=
  match a with
  | .applyF fi di => applySucceeds (s.funcQs.getD fi []) (s.dataQs.getD di [])
  | _ => false

/-- Example descriptor needing two arguments: `x + y`. -/
def exFunc2 : ArithmeticFunction := ⟨Operation.ADD, none, none⟩

/-- Example call state: the function queue holds `x + y`, the data queue holds
a single value — too few for the two required arguments. -/
def exState3 : ProcState := ⟨[exFunc2], [DataValue.intV 5], 0⟩

/-- Example descriptor `x / 0` with a pre-bound zero right operand. -/
def exFunc4 : ArithmeticFunction := ⟨Operation.DIVIDE, none, some (DataValue.intV 0)⟩

/-- Example call state for the division scenario: the function queue holds
`x / 0`, the data queue holds the value 10. -/
def exState4 : ProcState := ⟨[exFunc4], [DataValue.intV 10], 0⟩

-- Helper lemmas about the queue model.

/-- Pushing a list of values into a queue with enough free space appends the
values at the tail, in order. -/
theorem pushAll_spec {T : Type} (vs : List T) (es : List T) (cap idv : Int)
    (h : es.length + vs.length ≤ toSizeT cap) :
    pushAll (BQueue.mk es cap idv) vs = some (BQueue.mk (es ++ vs) cap idv) := by
  induction vs generalizing es with
  | nil => simp [pushAll]
  | cons v rest ih =>
    have hlt : es.length < toSizeT cap := by
      simp only [List.length_cons] at h
      omega
    have hpush : (BQueue.mk es cap idv).push v =
        some (BQueue.mk (es ++ [v]) cap idv) := by
      simp [BQueue.push, hlt]
    have hrec := ih (es ++ [v]) (by
      simp only [List.length_append, List.length_cons, List.length_nil] at h ⊢
      omega)
    simp only [pushAll, hpush, hrec, List.append_assoc, List.singleton_append]

/-- Popping `n` values from a queue holding at least `n` returns the first
`n` buffer entries in order and leaves the rest. -/
theorem popAll_spec {T : Type} (n : Nat) (es : List T) (cap idv : Int)
    (h : n ≤ es.length) :
    popAll (BQueue.mk es cap idv) n =
      some (es.take n, BQueue.mk (es.drop n) cap idv) := by
  induction n generalizing es with
  | zero => simp [popAll]
  | succ m ih =>
    cases es with
    | nil => simp at h
    | cons v rest =>
      have hrec := ih rest (by simpa using h)
      simp only [popAll, BQueue.pop, hrec, List.take_succ_cons, List.drop_succ_cons]

/-- One serialized step never grows the buffer beyond the push wait bound and
never changes the capacity field. -/
theorem stepOp_capacity_inv {T : Type} (q : BQueue T) (op : QOp T)
    (h : q.elements.length ≤ toSizeT q.maxCapacity) :
    (stepOp q op).elements.length ≤ toSizeT q.maxCapacity ∧
    (stepOp q op).maxCapacity = q.maxCapacity := by
  obtain ⟨es, cap, idv⟩ := q
  cases op with
  | push v =>
    by_cases hlt : es.length < toSizeT cap
    · simp only [stepOp, BQueue.push] at h ⊢
      simp [hlt]
      omega
    · simp only [stepOp, BQueue.push] at h ⊢
      simp [hlt]
      exact h
  | pop =>
    cases es with
    | nil => exact ⟨h, rfl⟩
    | cons v rest =>
      simp only [stepOp, BQueue.pop, List.length_cons] at h ⊢
      exact ⟨by omega, trivial⟩

/-- The buffer-length bound is an invariant of arbitrary serialized runs, and
the capacity field never changes. -/
theorem runOps_capacity_inv {T : Type} (ops : List (QOp T)) (q : BQueue T)
    (h : q.elements.length ≤ toSizeT q.maxCapacity) :
    (runOps q ops).elements.length ≤ toSizeT (runOps q ops).maxCapacity ∧
    (runOps q ops).maxCapacity = q.maxCapacity := by
  induction ops generalizing q with
  | nil => exact ⟨h, rfl⟩
  | cons op rest ih =>
    have hstep := stepOp_capacity_inv q op h
    have hlen1 : (stepOp q op).elements.length ≤ toSizeT (stepOp q op).maxCapacity := by
      rw [hstep.2]
      exact hstep.1
    have hrest := ih (stepOp q op) hlen1
    exact ⟨hrest.1, hrest.2.trans hstep.2⟩

-- Claim theorems: queue behaviour.

/-- C1: pushing v1..vn into an otherwise idle queue whose capacity is at
least n succeeds, and n pops then return exactly v1..vn in push order
(push appends at the tail, pop removes the head). -/
theorem C1_fifo {T : Type} (capacity ctr : Int) (vs : List T)
    (hcap : (vs.length : Int) ≤ capacity) (hrange : capacity < 2 ^ 31) :
    ∃ qfull : BQueue T,
      pushAll (mkQueue T capacity ctr).1 vs = some qfull ∧
      popAll qfull vs.length = some (vs, BQueue.mk [] capacity ctr) := by
  have h0 : (0 : Int) ≤ capacity := le_trans (Int.natCast_nonneg _) hcap
  have hmod : capacity % (2 ^ 64) = capacity :=
    Int.emod_eq_of_lt h0 (by omega)
  have hlen : vs.length ≤ toSizeT capacity := by
    unfold toSizeT
    rw [hmod]
    omega
  refine ⟨BQueue.mk vs capacity ctr, ?_, ?_⟩
  · have hp := pushAll_spec vs [] capacity ctr (by simpa using hlen)
    simpa [mkQueue] using hp
  · have hq := popAll_spec vs.length vs capacity ctr le_rfl
    simpa using hq

/-- Witness for C1: capacity 5, pushes [10, 20, 30], pops return them in
order. -/
theorem C1_fifo_witness :
    ∃ qfull : BQueue Int,
      pushAll (mkQueue Int 5 0).1 [10, 20, 30] = some qfull ∧
      popAll qfull 3 = some ([10, 20, 30], BQueue.mk [] 5 0) := by
  have h := C1_fifo (T := Int) 5 0 [10, 20, 30] (by decide) (by decide)
  simpa using h

/-- Counterexample for C2: the constructor accepts a negative capacity, for
which the push wait predicate `size() < static_cast<size_t>(maxCapacity)`
compares against a huge unsigned value, so a push completes and the reported
size 1 exceeds the capacity C = -1 (and already at creation 0 ≤ len ≤ C
fails).  C2 as stated over every created queue is therefore false. -/
theorem C2_counterexample :
    ¬ (((runOps (mkQueue Int (-1) 0).1 [QOp.push 7]).size : Int) ≤ -1) := by
  decide

/-- C2 (amended to queues created with a nonnegative capacity): for every
serialized sequence of push/pop calls, the buffer length stays within
0 ≤ len ≤ C, push never pushes beyond C, and `size()` never reports more
than C. -/
theorem C2_bounded_amended (capacity ctr : Int) (ops : List (QOp Int))
    (h0 : 0 ≤ capacity) (hrange : capacity < 2 ^ 31) :
    0 ≤ ((runOps (mkQueue Int capacity ctr).1 ops).size : Int) ∧
    ((runOps (mkQueue Int capacity ctr).1 ops).size : Int) ≤ capacity ∧
    ((runOps (mkQueue Int capacity ctr).1 ops).elements.length : Int) ≤ capacity := by
  have hmod : capacity % (2 ^ 64) = capacity :=
    Int.emod_eq_of_lt h0 (by omega)
  have hinv := runOps_capacity_inv ops (mkQueue Int capacity ctr).1 (by
    simp [mkQueue])
  have hlen : (runOps (mkQueue Int capacity ctr).1 ops).elements.length ≤
      toSizeT capacity := by
    have h1 := hinv.1
    rw [hinv.2] at h1
    simpa [mkQueue] using h1
  have hnat : (runOps (mkQueue Int capacity ctr).1 ops).elements.length ≤
      capacity.toNat := by
    unfold toSizeT at hlen
    rw [hmod] at hlen
    exact hlen
  refine ⟨Int.natCast_nonneg _, ?_, ?_⟩
  · simp only [BQueue.size]
    omega
  · omega

/-- Witness for the amended C2: capacity 2 with three pushes (the third
blocks) and one pop keeps the length within the bound. -/
theorem C2_bounded_witness :
    0 ≤ ((runOps (mkQueue Int 2 0).1
            [QOp.push 7, QOp.push 8, QOp.push 9, QOp.pop]).size : Int) ∧
    ((runOps (mkQueue Int 2 0).1
            [QOp.push 7, QOp.push 8, QOp.push 9, QOp.pop]).size : Int) ≤ 2 ∧
    ((runOps (mkQueue Int 2 0).1
            [QOp.push 7, QOp.push 8, QOp.push 9, QOp.pop]).elements.length : Int) ≤ 2 :=
  C2_bounded_amended 2 0 [QOp.push 7, QOp.push 8, QOp.push 9, QOp.pop]
    (by decide) (by decide)

/-- Counterexample for C8: construction performs no validation, so a queue
with capacity 0 exists — `Queue(0)` stores `maxCapacity = 0` instead of
rejecting or clamping the request to at least 1. -/
theorem C8_counterexample :
    (mkQueue Int 0 0).1.getMaxCapacity = 0 ∧
    ¬ (1 ≤ (mkQueue Int 0 0).1.getMaxCapacity) := by
  decide

/-- C8 (amended): the constructor stores the requested capacity unchanged
(no rejection, no clamping), so queues with capacity 0 or negative can
exist; push and pop stay well-defined as total partial operations — on a
capacity-0 queue a push never completes, and a pop on the freshly created
(empty) queue never completes. -/
theorem C8_amended (capacity ctr v : Int) :
    (mkQueue Int capacity ctr).1.getMaxCapacity = capacity ∧
    BQueue.push (mkQueue Int 0 ctr).1 v = none ∧
    BQueue.pop (mkQueue Int capacity ctr).1 = none := by
  refine ⟨rfl, ?_, rfl⟩
  simp [BQueue.push, mkQueue, toSizeT]

/-- Helper: the ids produced by a sequence of constructor calls are the
consecutive values of the global counter. -/
theorem mkQueueSeq_ids (caps : List Int) (ctr : Int) :
    (mkQueueSeq caps ctr).1.map BQueue.getId =
      (List.range caps.length).map (fun i : Nat => ctr + (i : Int)) ∧
    (mkQueueSeq caps ctr).2 = ctr + (caps.length : Int) := by
  induction caps generalizing ctr with
  | nil => simp [mkQueueSeq]
  | cons c rest ih =>
    obtain ⟨ih1, ih2⟩ := ih (ctr + 1)
    constructor
    · simp only [mkQueueSeq, mkQueue, List.map_cons, BQueue.getId, ih1,
        List.length_cons, List.range_succ_eq_map, List.map_map]
      refine congrArg₂ List.cons (by simp) ?_
      refine List.map_congr_left fun i hi => ?_
      simp only [Function.comp_apply]
      push_cast
      ring
    · simp only [mkQueueSeq, mkQueue, ih2, List.length_cons]
      push_cast
      ring

/-- C9: creating K queues (the id counter is independent of the element
type) yields K pairwise-distinct ids, drawn from one process-wide counter
that advances by one per construction. -/
theorem C9_unique_ids (caps : List Int) (ctr : Int) :
    ((mkQueueSeq caps ctr).1.map BQueue.getId).Nodup ∧
    (mkQueueSeq caps ctr).2 = ctr + (caps.length : Int) ∧
    (∀ (T : Type) (c i : Int),
      (mkQueue T c i).1.getId = i ∧ (mkQueue T c i).2 = i + 1) := by
  refine ⟨?_, (mkQueueSeq_ids caps ctr).2, fun T c i => ⟨rfl, rfl⟩⟩
  rw [(mkQueueSeq_ids caps ctr).1]
  have hinj : Function.Injective (fun i : Nat => ctr + (i : Int)) := by
    intro a b hab
    simp only at hab
    omega
  exact List.Nodup.map hinj (List.nodup_range _)

-- Helper lemmas about the arithmetic model.

/-- Comparing a squared real against the squared epsilon is the same as
comparing its absolute value against the epsilon. -/
theorem sq_lt_eps_iff (x : ℚ) : x ^ 2 < epsQ ^ 2 ↔ ratAbs x < epsQ := by
  have he : (0 : ℚ) < epsQ := by norm_num [epsQ]
  unfold ratAbs
  split_ifs with h
  · constructor
    · intro hlt
      nlinarith
    · intro hlt
      nlinarith
  · constructor
    · intro hlt
      nlinarith
    · intro hlt
      nlinarith

/-- The int instantiation throws the division error exactly when the divisor
fails the epsilon check. -/
theorem evalInt_divide_error (a b : Int) :
    evalInt .DIVIDE a b = .error "Division by zero" ↔ ratAbs (b : ℚ) < epsQ := by
  simp only [evalInt]
  split_ifs with h <;> simp [h]

/-- The float instantiation throws the division error exactly when the divisor
fails the epsilon check. -/
theorem evalFloat_divide_error (a b : ℚ) :
    evalFloat .DIVIDE a b = .error "Division by zero" ↔ ratAbs b < epsQ := by
  simp only [evalFloat]
  split_ifs with h <;> simp [h]

/-- The complex instantiation throws the division error exactly when the
divisor's squared magnitude fails the squared epsilon check. -/
theorem evalComplex_divide_error (a b : ℚ × ℚ) :
    evalComplex .DIVIDE a b = .error "Division by zero" ↔
      b.1 ^ 2 + b.2 ^ 2 < epsQ ^ 2 := by
  simp only [evalComplex]
  split_ifs with h <;> simp [h]

/-- The visit dispatch throws the division error exactly when the resolved
right operand's magnitude is below the epsilon. -/
theorem applyOp_divide_error (l r : DataValue) :
    applyOp .DIVIDE l r = .error "Division by zero" ↔ magLtEps r := by
  cases l <;> cases r <;>
    simp only [applyOp, magLtEps, evalInt_divide_error, evalFloat_divide_error,
      evalComplex_divide_error] <;>
    simp [sq_lt_eps_iff]

/-- A successful int instantiation yields an Integer-tagged value. -/
theorem evalInt_ok_tag (op : Operation) (a b : Int) (v : DataValue)
    (h : evalInt op a b = .ok v) : v.tag = .integer := by
  cases op <;> simp only [evalInt] at h <;> (try split_ifs at h) <;>
    (try simp only [Except.ok.injEq] at h) <;> (try subst h) <;>
    simp_all [DataValue.tag]

/-- A successful float instantiation yields a Float-tagged value. -/
theorem evalFloat_ok_tag (op : Operation) (a b : ℚ) (v : DataValue)
    (h : evalFloat op a b = .ok v) : v.tag = .float := by
  cases op <;> simp only [evalFloat] at h <;> (try split_ifs at h) <;>
    (try simp only [Except.ok.injEq] at h) <;> (try subst h) <;>
    simp_all [DataValue.tag]

/-- A successful complex instantiation yields a Complex-tagged value. -/
theorem evalComplex_ok_tag (op : Operation) (a b : ℚ × ℚ) (v : DataValue)
    (h : evalComplex op a b = .ok v) : v.tag = .complexT := by
  cases op <;> simp only [evalComplex] at h <;> (try split_ifs at h) <;>
    (try simp only [Except.ok.injEq] at h) <;> (try subst h) <;>
    simp_all [DataValue.tag]

/-- The counter after one `processFunctionWithData` call: incremented by one
exactly when the call reaches a successful application, unchanged otherwise. -/
theorem pfwd_counter (p : ProcState) :
    (processFunctionWithData p).counter =
      if applySucceeds p.funcQueue p.dataQueue then p.counter + 1
      else p.counter := by
  obtain ⟨fq, dq, c⟩ := p
  cases fq with
  | nil => simp [processFunctionWithData, applySucceeds]
  | cons f rest =>
    by_cases hlt : dq.length < f.requiredArgs
    · simp [processFunctionWithData, applySucceeds, hlt]
    · cases happ : applyFunction f (dq.take f.requiredArgs) with
      | ok v =>
        simp [processFunctionWithData, applySucceeds, hlt, happ, exceptOk]
      | error e =>
        simp [processFunctionWithData, applySucceeds, hlt, happ, exceptOk]

/-- A data-to-data transfer never touches the counter. -/
theorem sysTransfer_counter (s : SysState) (src dst : Nat) :
    (sysTransfer s src dst).counter = s.counter := by
  unfold sysTransfer
  split <;> rfl

-- Claim theorems: arithmetic and processing behaviour.

/-- C3: when the popped function needs more values than the data queue
holds, the application attempt leaves the data queue untouched (zero pops)
and the counter unchanged; in general an application removes exactly
`requiredArgs()` values from the data queue or none at all. -/
theorem C3_application_atomic (s : ProcState) :
    (∀ func rest, s.funcQueue = func :: rest →
        s.dataQueue.length < func.requiredArgs →
        (processFunctionWithData s).dataQueue = s.dataQueue ∧
        (processFunctionWithData s).counter = s.counter ∧
        (processFunctionWithData s).funcQueue = rest) ∧
    ((processFunctionWithData s).dataQueue = s.dataQueue ∨
      ∃ func rest, s.funcQueue = func :: rest ∧
        func.requiredArgs ≤ s.dataQueue.length ∧
        (processFunctionWithData s).dataQueue =
          s.dataQueue.drop func.requiredArgs ∧
        s.dataQueue.length - (processFunctionWithData s).dataQueue.length =
          func.requiredArgs) := by
  obtain ⟨fq, dq, c⟩ := s
  constructor
  · rintro func rest hq hlt
    simp only at hq
    subst hq
    simp only at hlt
    refine ⟨?_, ?_, ?_⟩ <;> simp [processFunctionWithData, hlt]
  · cases fq with
    | nil => left; rfl
    | cons func rest =>
      by_cases hlt : dq.length < func.requiredArgs
      · left
        simp [processFunctionWithData, hlt]
      · right
        have hdrop : (processFunctionWithData ⟨func :: rest, dq, c⟩).dataQueue =
            dq.drop func.requiredArgs := by
          cases happ : applyFunction func (dq.take func.requiredArgs) with
          | ok v => simp [processFunctionWithData, hlt, happ]
          | error e => simp [processFunctionWithData, hlt, happ]
        refine ⟨func, rest, rfl, ?_, hdrop, ?_⟩
        · show func.requiredArgs ≤ dq.length
          omega
        · show dq.length -
              (processFunctionWithData ⟨func :: rest, dq, c⟩).dataQueue.length =
            func.requiredArgs
          rw [hdrop, List.length_drop]
          omega

/-- Witness for C3: a binary function meets a data queue holding a single
value; the attempt removes nothing and leaves the counter at zero. -/
theorem C3_witness :
    (processFunctionWithData exState3).dataQueue = exState3.dataQueue ∧
    (processFunctionWithData exState3).counter = exState3.counter ∧
    (processFunctionWithData exState3).funcQueue = [] :=
  (C3_application_atomic exState3).1 exFunc2 [] rfl (by decide)

/-- C4: when the popped function divides by a resolved right operand of
magnitude below 1e-10, the evaluation fails with the division-by-zero
error, the counter is not incremented, the already-popped arguments are not
returned to the data queue, and the worker continues normally with the
function consumed. -/
theorem C4_divide_near_zero (s : ProcState) (func : ArithmeticFunction)
    (rest : List ArithmeticFunction)
    (hq : s.funcQueue = func :: rest)
    (hop : func.op = .DIVIDE)
    (hlen : func.requiredArgs ≤ s.dataQueue.length)
    (hmag : magLtEps (resolveRight func (s.dataQueue.take func.requiredArgs))) :
    applyFunction func (s.dataQueue.take func.requiredArgs) =
      .error "Division by zero" ∧
    (processFunctionWithData s).counter = s.counter ∧
    (processFunctionWithData s).dataQueue =
      s.dataQueue.drop func.requiredArgs ∧
    (processFunctionWithData s).funcQueue = rest := by
  have herr : applyFunction func (s.dataQueue.take func.requiredArgs) =
      .error "Division by zero" := by
    unfold applyFunction
    rw [hop]
    exact (applyOp_divide_error _ _).mpr hmag
  have hnlt : ¬ (s.dataQueue.length < func.requiredArgs) := Nat.not_lt.mpr hlen
  refine ⟨herr, ?_, ?_, ?_⟩ <;>
    simp [processFunctionWithData, hq, hnlt, herr]

/-- Witness for C4: the spec scenario — `x / 0` meets a data queue holding
10; the 10 is consumed, the division fails, the counter stays 0. -/
theorem C4_witness :
    applyFunction exFunc4 (exState4.dataQueue.take exFunc4.requiredArgs) =
      .error "Division by zero" ∧
    (processFunctionWithData exState4).counter = exState4.counter ∧
    (processFunctionWithData exState4).dataQueue =
      exState4.dataQueue.drop exFunc4.requiredArgs ∧
    (processFunctionWithData exState4).funcQueue = [] :=
  C4_divide_near_zero exState4 exFunc4 [] rfl rfl (by decide)
    (by simp [exFunc4, resolveRight, magLtEps]; norm_num [ratAbs, epsQ])

/-- C5: the completion counter is non-decreasing over every serialized
execution, and one step increments it by exactly 1 when and only when that
step is a function application that completes successfully — transfers,
producer pushes, skipped iterations (empty function queue or insufficient
data) and failed applications leave it unchanged. -/
theorem C5_counter_monotone :
    (∀ (s : SysState) (acts : List PAction),
      s.counter ≤ (acts.foldl sysStep s).counter) ∧
    (∀ (s : SysState) (a : PAction),
      (sysStep s a).counter =
        if sysSuccess s a then s.counter + 1 else s.counter) := by
  have hstep : ∀ (s : SysState) (a : PAction),
      (sysStep s a).counter =
        if sysSuccess s a then s.counter + 1 else s.counter := by
    intro s a
    cases a with
    | transfer src dst => simp [sysStep, sysSuccess, sysTransfer_counter]
    | applyF fi di =>
      simp only [sysStep, sysApply, sysSuccess]
      exact pfwd_counter ⟨s.funcQs.getD fi [], s.dataQs.getD di [], s.counter⟩
    | produceData i v => simp [sysStep, sysSuccess, sysProduceData]
    | produceFunc i f => simp [sysStep, sysSuccess, sysProduceFunc]
    | skipIter => simp [sysStep, sysSuccess]
  refine ⟨?_, hstep⟩
  intro s acts
  induction acts generalizing s with
  | nil => exact le_refl _
  | cons a rest ih =>
    have h1 : s.counter ≤ (sysStep s a).counter := by
      rw [hstep s a]
      split <;> omega
    exact le_trans h1 (ih (sysStep s a))

/-- C6: `requiredArgs()` counts the unset operands — 0 when both operands
are set, 1 when exactly one is set, 2 when neither is. -/
theorem C6_requiredArgs (f : ArithmeticFunction) :
    (f.left_operand.isSome = true → f.right_operand.isSome = true →
      f.requiredArgs = 0) ∧
    (f.left_operand.isSome = true → f.right_operand.isSome = false →
      f.requiredArgs = 1) ∧
    (f.left_operand.isSome = false → f.right_operand.isSome = true →
      f.requiredArgs = 1) ∧
    (f.left_operand.isSome = false → f.right_operand.isSome = false →
      f.requiredArgs = 2) := by
  refine ⟨?_, ?_, ?_, ?_⟩ <;> intro h1 h2 <;>
    simp [ArithmeticFunction.requiredArgs, h1, h2]

/-- Witness for C6 at the four operand patterns. -/
theorem C6_witness :
    (ArithmeticFunction.mk .ADD (some (.intV 1)) (some (.intV 2))).requiredArgs = 0 ∧
    (ArithmeticFunction.mk .ADD (some (.intV 1)) none).requiredArgs = 1 ∧
    (ArithmeticFunction.mk .ADD none (some (.intV 2))).requiredArgs = 1 ∧
    (ArithmeticFunction.mk .ADD none none).requiredArgs = 2 :=
  ⟨(C6_requiredArgs _).1 rfl rfl, (C6_requiredArgs _).2.1 rfl rfl,
   (C6_requiredArgs _).2.2.1 rfl rfl, (C6_requiredArgs _).2.2.2 rfl rfl⟩

/-- C7: a successful application's result carries the widest of the two
operand tags under Integer < Float < Complex — both operands are promoted
to that type by the visit dispatch before the operation is evaluated. -/
theorem C7_promotion (op : Operation) (l r v : DataValue)
    (h : applyOp op l r = .ok v) : v.tag = widenTag l.tag r.tag := by
  cases l <;> cases r <;> simp only [applyOp] at h <;>
    first
      | (rw [evalInt_ok_tag _ _ _ _ h]; rfl)
      | (rw [evalFloat_ok_tag _ _ _ _ h]; rfl)
      | (rw [evalComplex_ok_tag _ _ _ _ h]; rfl)

/-- Witness for C7: Integer + Complex evaluates at Complex and yields a
Complex-tagged result (2 + (1 + 1i) = 3 + 1i). -/
theorem C7_witness :
    (DataValue.complexV 3 1).tag =
      widenTag (DataValue.intV 2).tag (DataValue.complexV 1 1).tag :=
  C7_promotion .ADD (.intV 2) (.complexV 1 1) (.complexV 3 1)
    (by simp [applyOp, evalComplex]; norm_num)

/-- C10: with two Integer operands and a divisor passing the epsilon check
(for integers: any nonzero divisor), Divide evaluates at type int with C++
truncating integer division and returns an Integer-tagged result, not a
Float. -/
theorem C10_integer_division (a b : Int)
    (h : ¬ (ratAbs (b : ℚ) < epsQ)) :
    applyFunction ⟨.DIVIDE, none, none⟩ [.intV a, .intV b] =
      .ok (.intV (Int.tdiv a b)) ∧
    (DataValue.intV (Int.tdiv a b)).tag = Tag.integer := by
  refine ⟨?_, rfl⟩
  simp [applyFunction, resolveLeft, resolveRight, applyOp, evalInt, h,
    List.getD]

/-- Witness for C10: 7 / 2 evaluates to the Integer 3 (truncation), not 3.5. -/
theorem C10_witness :
    applyFunction ⟨Operation.DIVIDE, none, none⟩
        [DataValue.intV 7, DataValue.intV 2] =
      .ok (.intV (Int.tdiv 7 2)) ∧
    Int.tdiv 7 2 = 3 ∧ Int.tdiv (-7) 2 = -3 :=
  ⟨(C10_integer_division 7 2 (by norm_num [ratAbs, epsQ])).1,
   by decide, by decide⟩

end ProcessingThreads
